import Mathlib

/-!
Verification of the http-sig signature engine (draft-cavage-http-signatures-12
implementation): a shallow embedding of the canonicalization, signature-parameter
parsing, signing/verification and option-merging code, together with theorems
settling the specification claims.

JavaScript strings are modelled as Lean strings, Buffers as lists of byte
values (`List Nat`, each element < 256 where it matters), exceptions as an
explicit error type returned through `Except`, and the crypto primitives
(HMAC, hash) as abstract functions supplied as fields or parameters, since
their internals are outside the repository.
-/

set_option maxRecDepth 4096

/-- Failure kinds. `verification` and `configuration` are the library error
classes; `rangeError` and `typeError` model the corresponding built-in
JavaScript exceptions escaping from runtime functions such as
crypto.timingSafeEqual and Buffer.from. -/
inductive Err where
  | verification (msg : String)
  | configuration (msg : String)
  | rangeError (msg : String)
  | typeError (msg : String)
deriving DecidableEq, Repr

deriving instance DecidableEq for Except

/-- True exactly on a thrown VerificationError. -/
def isVerificationErr {α : Type} : Except Err α → Bool
  | .error (.verification _) => true
  | _ => false

/-! ## JavaScript string primitives, modelled on character lists -/

/-- The whitespace class used by JS `\s`, `trimEnd` for the characters the
library can meet: space, tab, LF, VT, FF, CR, NBSP (by code point). -/
def isJsWs (c : Char) : Bool :=
  c.toNat = 32 || c.toNat = 9 || c.toNat = 10 || c.toNat = 11 ||
  c.toNat = 12 || c.toNat = 13 || c.toNat = 160

/-- ASCII lower-casing of a single character (String.prototype.toLowerCase on
the header names and tokens used by the library, which are ASCII). -/
def asciiLowerChar (c : Char) : Char :=
  if 65 ≤ c.toNat ∧ c.toNat ≤ 90 then Char.ofNat (c.toNat + 32) else c

/-- String.prototype.toLowerCase restricted to ASCII. -/
def asciiLower (s : String) : String := String.mk (s.data.map asciiLowerChar)

/-- Right-trim of a character list: drop trailing whitespace. -/
def rtrimChars (l : List Char) : List Char :=
  (l.reverse.dropWhile isJsWs).reverse

/-- String.prototype.trimEnd / trimRight. -/
def jsTrimEnd (s : String) : String := String.mk (rtrimChars s.data)

/-- Array.prototype.join with separator `sep` (also String.prototype for
joining canonical lines). -/
def joinSep (sep : String) : List String → String
  | [] => ""
  | [x] => x
  | x :: xs => x ++ sep ++ joinSep sep xs

/-- Split of a character list at every occurrence of `sep`; always returns at
least one (possibly empty) part, like String.prototype.split. -/
def splitCharAux (sep : Char) : List Char → List (List Char)
  | [] => [[]]
  | c :: cs =>
    match splitCharAux sep cs with
    | [] => [[]]
    | cur :: rest => if c = sep then [] :: cur :: rest else (c :: cur) :: rest

/-- String.prototype.split with a single-character separator. -/
def jsSplit (sep : Char) (s : String) : List String :=
  (splitCharAux sep s.data).map String.mk

/-- Index of the first occurrence of a character (String.prototype.indexOf,
with `none` in place of -1). -/
def idxOfChar (c : Char) : List Char → Option Nat
  | [] => none
  | a :: as => if a = c then some 0 else (idxOfChar c as).map (· + 1)

/-- Index of the last occurrence of a character (String.prototype.lastIndexOf,
with `none` in place of -1). -/
def lastIdxOfChar (c : Char) (l : List Char) : Option Nat :=
  match idxOfChar c l.reverse with
  | none => none
  | some i => some (l.length - 1 - i)

/-- Whether `pre` is a prefix of `l` (String.prototype.startsWith). -/
def listStarts : List Char → List Char → Bool
  | _, [] => true
  | [], _ :: _ => false
  | c :: cs, p :: ps => c = p && listStarts cs ps

def strStarts (s pre : String) : Bool := listStarts s.data pre.data

/-- String.prototype.endsWith. -/
def strEnds (s suf : String) : Bool := listStarts s.data.reverse suf.data.reverse

/-- Numeric value of a digit string (parseInt on an all-digit string). -/
def digitsToNat (l : List Char) : Nat :=
  l.foldl (fun acc c => acc * 10 + (c.toNat - 48)) 0

/-! ## Base64 (Buffer.prototype.toString('base64') / Buffer.from(_, 'base64')) -/

/-- Character of a 6-bit value in the standard base64 alphabet. -/
def b64Char (v : Nat) : Char :=
  if v < 26 then Char.ofNat (65 + v)
  else if v < 52 then Char.ofNat (97 + (v - 26))
  else if v < 62 then Char.ofNat (48 + (v - 52))
  else if v = 62 then '+'
  else '/'

/-- 6-bit value of a base64 alphabet character; `none` on any other character
(padding `=` included), which Node's decoder skips. -/
def b64Val (c : Char) : Option Nat :=
  if 65 ≤ c.toNat ∧ c.toNat ≤ 90 then some (c.toNat - 65)
  else if 97 ≤ c.toNat ∧ c.toNat ≤ 122 then some (c.toNat - 97 + 26)
  else if 48 ≤ c.toNat ∧ c.toNat ≤ 57 then some (c.toNat - 48 + 52)
  else if c = '+' then some 62
  else if c = '/' then some 63
  else none

/-- Canonical (padded) base64 encoding of a byte list, three bytes at a time. -/
def b64EncodeChunks : List Nat → List Char
  | b1 :: b2 :: b3 :: rest =>
    b64Char (b1 / 4) :: b64Char (b1 % 4 * 16 + b2 / 16) ::
    b64Char (b2 % 16 * 4 + b3 / 64) :: b64Char (b3 % 64) :: b64EncodeChunks rest
  | [b1, b2] => [b64Char (b1 / 4), b64Char (b1 % 4 * 16 + b2 / 16), b64Char (b2 % 16 * 4), '=']
  | [b1] => [b64Char (b1 / 4), b64Char (b1 % 4 * 16), '=', '=']
  | [] => []

def base64Encode (bytes : List Nat) : String := String.mk (b64EncodeChunks bytes)

/-- Recombination of 6-bit groups into bytes, four groups at a time; a single
trailing group contributes nothing, as in Node's decoder. -/
def b64DecodeSextets : List Nat → List Nat
  | s1 :: s2 :: s3 :: s4 :: rest =>
    (s1 * 4 + s2 / 16) :: (s2 % 16 * 16 + s3 / 4) :: (s3 % 4 * 64 + s4) :: b64DecodeSextets rest
  | [s1, s2, s3] => [s1 * 4 + s2 / 16, s2 % 16 * 16 + s3 / 4]
  | [s1, s2] => [s1 * 4 + s2 / 16]
  | _ => []

/-- Buffer.from(s, 'base64'): skip non-alphabet characters, recombine. -/
def base64Decode (s : String) : List Nat :=
  b64DecodeSextets (s.data.filterMap b64Val)

/-- An Except-valued map over a list, stopping at the first error, exactly as
a thrown exception aborts Array.prototype.map. -/
def mapExcept {α β : Type} (f : α → Except Err β) : List α → Except Err (List β)
  | [] => .ok []
  | a :: as =>
    match f a with
    | .error e => .error e
    | .ok b =>
      match mapExcept f as with
      | .error e => .error e
      | .ok bs => .ok (b :: bs)

/-! ## Types (types.ts) -/

/-- The closed set of signature schemes (enum SignatureAlgorithm). -/
inductive SignatureAlgorithm where
  | hs2019
  | rsaSha256
  | hmacSha256
  | ecdsaSha256
deriving DecidableEq, Repr

/-- Wire name of a scheme (the enum value string). -/
def SignatureAlgorithm.wire : SignatureAlgorithm → String
  | .hs2019 => "hs2019"
  | .rsaSha256 => "rsa-sha256"
  | .hmacSha256 => "hmac-sha256"
  | .ecdsaSha256 => "ecdsa-sha256"

/-- Inverse lookup over the enum values
(Object.values(SignatureAlgorithm).includes plus the cast back). -/
def SignatureAlgorithm.fromWire (s : String) : Option SignatureAlgorithm :=
  if s = "hs2019" then some .hs2019
  else if s = "rsa-sha256" then some .rsaSha256
  else if s = "hmac-sha256" then some .hmacSha256
  else if s = "ecdsa-sha256" then some .ecdsaSha256
  else none

/-- enum DigestAlgorithm. -/
inductive DigestAlgorithm where
  | sha256
  | sha512
deriving DecidableEq, Repr

/-- Wire name of a digest algorithm (the enum value string). -/
def DigestAlgorithm.wire : DigestAlgorithm → String
  | .sha256 => "SHA-256"
  | .sha512 => "SHA-512"

/-- A HeaderSignSpec entry value: 'sign', 'verify', or true (meaning both). -/
inductive HeaderTag where
  | sign
  | verify
  | both
deriving DecidableEq, Repr

/-- HeaderSignSpec: an object mapping header names to tags, kept in property
insertion order. -/
abbrev HeaderSpec := List (String × HeaderTag)

/-- ConcreteSignatureOptions: the fully resolved option record of a key. -/
structure ConcreteSignatureOptions where
  requestHeaders : HeaderSpec
  responseHeaders : HeaderSpec
  calculateDigest : Bool
deriving DecidableEq, Repr

/-- headerList (SignatureKey.ts): the names whose tag is `mode` or true. -/
def headerList (headers : HeaderSpec) (mode : HeaderTag) : List String :=
  (headers.filter (fun e => e.2 = mode || e.2 = .both)).map (·.1)

/-- RequestTarget (types.ts). -/
structure RequestTarget where
  method : String
  path : String

/-- The HttpMessage adapter interface (MessageContext.ts): a header accessor
and an optional request target. A `some []` result does not occur
(NonEmptyArray), but nothing below relies on that. -/
structure HttpMessage where
  getHeader : String → Option (List String)
  requestTarget : Option RequestTarget

/-- MessageContextOptions: instance-scope pseudo-header timestamps. -/
structure MessageContextOptions where
  createdAt : Option String := none
  expiresAt : Option String := none

/-- MessageContext: wrapper over one HTTP message. -/
structure MessageContext where
  message : HttpMessage
  options : MessageContextOptions

/-! ## Signature parsing (Signature.ts) -/

def EXPIRES_SLACK : Int := 60000
def CREATED_SLACK : Int := 60000

def MSG_MALFORMED : String := "malformed signature string"

/-- parseStringField: the value must begin and end with a double quote; the
result is value.slice(1, -1). -/
def parseStringField (value : String) : Except Err String :=
  if strStarts value "\"" && strEnds value "\"" then
    .ok (String.mk ((value.data.drop 1).dropLast))
  else
    .error (.verification MSG_MALFORMED)

/-- parseIntField: digits only, no leading zero except the literal 0. -/
def parseIntField (value : String) : Except Err Nat :=
  if value.data.any (fun c => !c.isDigit) then .error (.verification MSG_MALFORMED)
  else if strStarts value "0" && value != "0" then .error (.verification MSG_MALFORMED)
  else .ok (digitsToNat value.data)

/-- parseDecimalField: digits and at most one inner decimal point, no leading
zero except directly before the point. The exact decimal value is returned as
(integer part, fraction digits); the caller floors value * 1000, which is
computed here with exact rational arithmetic (parseFloat introduces no
deviation at the magnitudes the library meets). -/
def parseDecimalField (value : String) : Except Err (Nat × List Char) :=
  if value.data.any (fun c => !(c.isDigit || c = '.')) then .error (.verification MSG_MALFORMED)
  else
    let firstDecimalIdx : Int := (idxOfChar '.' value.data).elim (-1) (fun i => (i : Int))
    let lastDecimalIdx : Int := (lastIdxOfChar '.' value.data).elim (-1) (fun i => (i : Int))
    if firstDecimalIdx = 0 || lastDecimalIdx = (value.data.length : Int) - 1 then
      .error (.verification MSG_MALFORMED)
    else if strStarts value "0" && value.data.length > 1 && firstDecimalIdx ≠ 1 then
      .error (.verification MSG_MALFORMED)
    else if firstDecimalIdx ≠ lastDecimalIdx then
      .error (.verification MSG_MALFORMED)
    else
      .ok (digitsToNat (value.data.takeWhile (fun c => c ≠ '.')),
           (value.data.dropWhile (fun c => c ≠ '.')).drop 1)

/-- Lookup in the parameter map built by pairsToMap (Map.prototype.get). -/
def mapGet (m : List (String × String)) (k : String) : Option String :=
  (m.find? (fun e => e.1 == k)).map (·.2)

/-- One iteration of the pairsToMap forEach body: split the pair at its first
'=', requiring a nonempty key without whitespace, a nonempty value, and a key
not seen before. -/
def pairsToMapStep (acc : List (String × String)) (p : String) :
    Except Err (List (String × String)) :=
  match idxOfChar '=' p.data with
  | none => .error (.verification "malformed signature string (missing \x60=\x60 in field)")
  | some eqLocation =>
    let key := String.mk (p.data.take eqLocation)
    let value := String.mk (p.data.drop (eqLocation + 1))
    if key == "" || value == "" || key.data.any isJsWs then
      .error (.verification MSG_MALFORMED)
    else if (acc.map Prod.fst).contains key then
      .error (.verification ("duplicated field " ++ key ++ " present in signature"))
    else
      .ok (acc ++ [(key, value)])

/-- pairsToMap: fold the step over the pairs. -/
def pairsToMapAux (acc : List (String × String)) :
    List String → Except Err (List (String × String))
  | [] => .ok acc
  | p :: ps =>
    match pairsToMapStep acc p with
    | .error e => .error e
    | .ok acc2 => pairsToMapAux acc2 ps

def pairsToMap (pairs : List String) : Except Err (List (String × String)) :=
  pairsToMapAux [] pairs

/-- getKeyId: required quoted field. -/
def getKeyId (fieldMap : List (String × String)) : Except Err String :=
  match mapGet fieldMap "keyId" with
  | none => .error (.verification "required field \x60keyId\x60 not present in signature")
  | some keyId =>
    if keyId == "" then .error (.verification "required field \x60keyId\x60 not present in signature")
    else parseStringField keyId

/-- getSignatureAlgorithm: optional quoted field, restricted to the scheme enum. -/
def getSignatureAlgorithm (fieldMap : List (String × String)) :
    Except Err (Option SignatureAlgorithm) :=
  match mapGet fieldMap "algorithm" with
  | none => .ok none
  | some algorithmVal =>
    if algorithmVal == "" then .ok none
    else
      match parseStringField algorithmVal with
      | .error e => .error e
      | .ok algorithm =>
        match SignatureAlgorithm.fromWire algorithm with
        | none => .error (.verification ("signature algorithm \x60" ++ algorithm ++ "\x60 is not supported"))
        | some alg => .ok (some alg)

def DEFAULT_HEADERS : List String := ["(created)"]

/-- getHeaders: optional quoted field split on single spaces and lower-cased;
empty or whitespace-bearing entries are rejected. Defaults to [(created)]. -/
def getHeaders (fieldMap : List (String × String)) : Except Err (List String) :=
  match mapGet fieldMap "headers" with
  | none => .ok DEFAULT_HEADERS
  | some headersStr =>
    if headersStr == "" then .ok DEFAULT_HEADERS
    else
      match parseStringField headersStr with
      | .error e => .error e
      | .ok unquoted =>
        let headers := (jsSplit ' ' unquoted).map asciiLower
        if headers.any (fun s => s.data.length == 0 || s.data.any isJsWs) then
          .error (.verification "malformed header list in signature string")
        else .ok headers

/-- getSignature (the parameter-map field extractor): required quoted field
whose content must be base64 with floor(len_unpadded * 3/4) equal to the
decoded length, nonzero. -/
def getSignatureField (fieldMap : List (String × String)) : Except Err (List Nat) :=
  match mapGet fieldMap "signature" with
  | none => .error (.verification "required field \x60signature\x60 not present in signature")
  | some signatureStrVal =>
    if signatureStrVal == "" then
      .error (.verification "required field \x60signature\x60 not present in signature")
    else
      match parseStringField signatureStrVal with
      | .error e => .error e
      | .ok signatureStr =>
        let signature := base64Decode signatureStr
        let unpadded := signatureStr.data.filter (fun c => c != '=')
        if unpadded.length * 3 / 4 != signature.length || signature.length == 0 then
          .error (.verification "invalid base64 string provided in signature")
        else .ok signature

/-- getCreated: optional integer field, seconds converted to milliseconds. -/
def getCreated (fieldMap : List (String × String)) : Except Err (Option Int) :=
  match mapGet fieldMap "created" with
  | none => .ok none
  | some createdStr =>
    if createdStr == "" then .ok none
    else
      match parseIntField createdStr with
      | .error e => .error e
      | .ok createdNum => .ok (some ((createdNum : Int) * 1000))

/-- getExpires: optional decimal field, seconds converted to milliseconds with
Math.floor. -/
def getExpires (fieldMap : List (String × String)) : Except Err (Option Int) :=
  match mapGet fieldMap "expires" with
  | none => .ok none
  | some expiresStr =>
    if expiresStr == "" then .ok none
    else
      match parseDecimalField expiresStr with
      | .error e => .error e
      | .ok (intPart, fracDigits) =>
        .ok (some ((intPart * 1000 + digitsToNat fracDigits * 1000 / 10 ^ fracDigits.length : Nat) : Int))

/-- A parsed Signature record. Timestamps are wall-clock milliseconds. -/
structure Signature where
  keyId : String
  signature : List Nat
  headers : List String
  signatureAlgorithm : Option SignatureAlgorithm := none
  created : Option Int := none
  expires : Option Int := none
  observedAt : Int
deriving DecidableEq, Repr

/-- Signature.fromHeader. `now` stands for the wall clock used when no
explicit `atTime` is supplied. -/
def Signature.fromHeader (header : String) (atTime : Option Int) (now : Int) :
    Except Err Signature :=
  match pairsToMap (jsSplit ',' header) with
  | .error e => .error e
  | .ok fieldMap =>
  match getKeyId fieldMap with
  | .error e => .error e
  | .ok keyId =>
  match getSignatureField fieldMap with
  | .error e => .error e
  | .ok signature =>
  match getHeaders fieldMap with
  | .error e => .error e
  | .ok headers =>
  match getSignatureAlgorithm fieldMap with
  | .error e => .error e
  | .ok signatureAlgorithm =>
  match getCreated fieldMap with
  | .error e => .error e
  | .ok created =>
  match getExpires fieldMap with
  | .error e => .error e
  | .ok expires =>
    .ok { keyId := keyId, signature := signature, headers := headers,
          signatureAlgorithm := signatureAlgorithm, created := created,
          expires := expires, observedAt := atTime.getD now }

def Signature.signedCreated (s : Signature) : Bool :=
  s.created.isSome && s.headers.contains "(created)"

def Signature.signedExpires (s : Signature) : Bool :=
  s.expires.isSome && s.headers.contains "(expires)"

/-- validCreation: absent `created` is vacuously valid; otherwise the creation
instant may lie at most CREATED_SLACK - 1 ms in the future. -/
def Signature.validCreation (s : Signature) : Bool :=
  match s.created with
  | none => true
  | some created => created - s.observedAt < CREATED_SLACK

/-- validExpires: absent `expires` is vacuously valid; otherwise the expiry
may lie at most EXPIRES_SLACK - 1 ms in the past. -/
def Signature.validExpires (s : Signature) : Bool :=
  match s.expires with
  | none => true
  | some expires => s.observedAt - expires < EXPIRES_SLACK

/-! ## MessageContext (MessageContext.ts) -/

/-- MessageContext.getRequestTarget composed into the private getHeader:
resolve pseudo-headers, forward everything else to the adapter. Signing or
verifying (request-target) on a message without one throws a
ConfigurationError ("BUG: ..."). The `(created)`/`(expires)` branches use JS
truthiness, so an empty-string option behaves as absent. -/
def MessageContext.getHeader (ctx : MessageContext) (name : String) :
    Except Err (Option (List String)) :=
  let normalizedName := asciiLower name
  if normalizedName = "(request-target)" then
    match ctx.message.requestTarget with
    | none => .error (.configuration "BUG: attempted to sign/verify (request-target) for response")
    | some rt => .ok (some [asciiLower rt.method ++ " " ++ rt.path])
  else if normalizedName = "(created)" then
    .ok (match ctx.options.createdAt with
        | none => none
        | some s => if s = "" then none else some [s])
  else if normalizedName = "(expires)" then
    .ok (match ctx.options.expiresAt with
        | none => none
        | some s => if s = "" then none else some [s])
  else
    .ok (ctx.message.getHeader normalizedName)

/-- One line of the canonical string: lower-cased name, colon, space, the
values joined with ", ", right-trimmed; a missing header throws. -/
def MessageContext.canonicalLine (ctx : MessageContext) (h : String) : Except Err String :=
  let lowerName := asciiLower h
  match ctx.getHeader lowerName with
  | .error e => .error e
  | .ok none => .error (.verification ("attempted to sign/verify missing header \x27" ++ h ++ "\x27"))
  | .ok (some headerValues) => .ok (jsTrimEnd (lowerName ++ ": " ++ joinSep ", " headerValues))

/-- MessageContext.canonicalString: the lines for the given names in order,
joined with a single newline and no trailing newline. -/
def MessageContext.canonicalString (ctx : MessageContext) (headers : List String) :
    Except Err String :=
  match mapExcept ctx.canonicalLine headers with
  | .error e => .error e
  | .ok mergedHeaders => .ok (joinSep "\n" mergedHeaders)

/-- MessageContext.getSignature: collect the signature header values and the
authorization values carrying the "Signature " scheme; none yields no result,
more than one is an error, exactly one is parsed. -/
def MessageContext.getSignature (ctx : MessageContext) (atTime : Option Int) (now : Int) :
    Except Err (Option Signature) :=
  match ctx.getHeader "signature" with
  | .error e => .error e
  | .ok signatureHeaders =>
  match ctx.getHeader "authorization" with
  | .error e => .error e
  | .ok authHeaders =>
    let signatureAuthHeaders :=
      ((authHeaders.getD []).filter (fun auth => strStarts auth "Signature ")).map (fun auth =>
        match idxOfChar ' ' auth.data with
        | none => auth
        | some spaceIdx => String.mk (auth.data.drop (spaceIdx + 1)))
    match signatureHeaders.getD [] ++ signatureAuthHeaders with
    | [] => .ok none
    | [s] =>
      match Signature.fromHeader s atTime now with
      | .error e => .error e
      | .ok sig => .ok (some sig)
    | _ => .error (.verification "multiple signatures present on message")

/-! ## SignatureKey (SignatureKey.ts, HmacSignatureKey.ts) -/

/-- A resolved signature key. `sign` is the abstract MAC primitive of the
concrete HmacSignatureKey (HMAC over the UTF-8 bytes of its input, keyed by
the key material), and `hasher` the abstract body-digest function of the
configured digest algorithm; both are opaque platform crypto. -/
structure SignatureKey where
  id : String
  hasher : List Nat → List Nat
  signatureAlgorithm : SignatureAlgorithm
  digestAlgorithm : DigestAlgorithm
  options : ConcreteSignatureOptions
  sign : String → List Nat

/-- crypto.timingSafeEqual: equal-length buffers compare by content, a length
mismatch throws a RangeError. -/
def timingSafeEqual (a b : List Nat) : Except Err Bool :=
  if a.length = b.length then .ok (a == b)
  else .error (.rangeError "Input buffers must have the same byte length")

/-- HmacSignatureKey.verify: compare the reference MAC against the candidate,
translating the comparator RangeError into a VerificationError. -/
def HmacSignatureKey.verify (key : SignatureKey) (buf : String) (mac : List Nat) :
    Except Err Bool :=
  let actualMac := key.sign buf
  match timingSafeEqual actualMac mac with
  | .error (.rangeError _) => .error (.verification "signature length mismatch")
  | .error e => .error e
  | .ok b => .ok b

/-- SignatureKey.verifyDigestHeader: split on the first '=', compare the
algorithm token case-insensitively, then compare the decoded digest against
the recomputed one with crypto.timingSafeEqual, whose exceptions are NOT
caught here. A missing '=' that survives the algorithm check reaches
Buffer.from(undefined), a TypeError. -/
def SignatureKey.verifyDigestHeader (key : SignatureKey) (body : List Nat) (digest : String) :
    Except Err Bool :=
  match (jsSplit '=' digest).take 2 with
  | [] => .error (.typeError "unreachable: String.prototype.split returns at least one part")
  | cmpAlg :: rest =>
    if asciiLower cmpAlg ≠ asciiLower key.digestAlgorithm.wire then
      .error (.verification ("mismatched digest algorithm: got " ++ cmpAlg ++ ", expected " ++ key.digestAlgorithm.wire))
    else
      match rest with
      | [] => .error (.typeError "The first argument must be of type string or an instance of Buffer")
      | encodedCmpDigest :: _ =>
        let cmpDigest := base64Decode encodedCmpDigest
        let refDigest := key.hasher body
        match timingSafeEqual cmpDigest refDigest with
        | .error e => .error e
        | .ok b => if !b then .error (.verification "body digest verification failed") else .ok true

/-- SignatureKey.createDigestHeader. -/
def SignatureKey.createDigestHeader (key : SignatureKey) (body : List Nat) : String :=
  key.digestAlgorithm.wire ++ "=" ++ base64Encode (key.hasher body)

/-- The signed header list of #signMessage: the names tagged sign or both,
with 'digest' appended when calculateDigest is on and it is not yet present. -/
def signHeaders (calculateDigest : Bool) (headerSpec : HeaderSpec) : List String :=
  let headers := headerList headerSpec .sign
  if calculateDigest && !headers.contains "digest" then headers ++ ["digest"] else headers

/-- One name="value" parameter of the emitted Signature string. -/
def kvQuoted (k v : String) : String := k ++ "=\"" ++ v ++ "\""

/-- The emitted Signature parameter string of #signMessage: the template
keyId="...",algorithm="...",headers="...",signature="..." written as the
comma-join of its four parameters. -/
def formatParams (keyId algorithm headers signature : String) : String :=
  joinSep "," [kvQuoted "keyId" keyId, kvQuoted "algorithm" algorithm,
    kvQuoted "headers" headers, kvQuoted "signature" signature]

/-- SignatureKey.#signMessage: canonicalize the configured headers (plus
digest), MAC, format. -/
def SignatureKey.signMessage (key : SignatureKey) (msgCtx : MessageContext)
    (headerSpec : HeaderSpec) : Except Err String :=
  let headers := signHeaders key.options.calculateDigest headerSpec
  match msgCtx.canonicalString headers with
  | .error e => .error e
  | .ok payload =>
    .ok (formatParams key.id key.signatureAlgorithm.wire (joinSep " " headers)
          (base64Encode (key.sign payload)))

def SignatureKey.signRequest (key : SignatureKey) (msgCtx : MessageContext) : Except Err String :=
  key.signMessage msgCtx key.options.requestHeaders

def SignatureKey.signResponse (key : SignatureKey) (msgCtx : MessageContext) : Except Err String :=
  key.signMessage msgCtx key.options.responseHeaders

/-- The tail of SignatureKey.#verifyMessage after the algorithm-agreement
check: canonicalize over the signature's declared headers, MAC-verify,
enforce the locally required headers, then the timestamp windows. -/
def SignatureKey.verifyTail (key : SignatureKey) (msgCtx : MessageContext)
    (headerSpec : HeaderSpec) (refSig : Signature) : Except Err Bool :=
  match msgCtx.canonicalString refSig.headers with
  | .error e => .error e
  | .ok payload =>
  match HmacSignatureKey.verify key payload refSig.signature with
  | .error e => .error e
  | .ok signatureVerified =>
    if !signatureVerified then .error (.verification "signature verification failure")
    else
      let missingHeaders := (headerList headerSpec .verify).filter
        (fun header => !refSig.headers.contains header)
      if missingHeaders.length > 0 then
        .error (.verification ("signature missing required headers: " ++ joinSep ", " missingHeaders))
      else if !refSig.validCreation then .error (.verification "signature creation in future")
      else if !refSig.validExpires then .error (.verification "signature has expired")
      else .ok true

/-- SignatureKey.#verifyMessage: extract the signature, require algorithm
agreement when the signature declares one, then run the tail. -/
def SignatureKey.verifyMessage (key : SignatureKey) (msgCtx : MessageContext)
    (headerSpec : HeaderSpec) (now : Int) : Except Err Bool :=
  match msgCtx.getSignature none now with
  | .error e => .error e
  | .ok none => .error (.verification "signature not present on message")
  | .ok (some refSig) =>
    match refSig.signatureAlgorithm with
    | some declared =>
      if key.signatureAlgorithm ≠ declared then
        .error (.verification ("incorrect signature scheme used for key \x27" ++ key.id ++ "\x27"))
      else key.verifyTail msgCtx headerSpec refSig
    | none => key.verifyTail msgCtx headerSpec refSig

def SignatureKey.verifyRequest (key : SignatureKey) (msgCtx : MessageContext) (now : Int) :
    Except Err Bool :=
  key.verifyMessage msgCtx key.options.requestHeaders now

def SignatureKey.verifyResponse (key : SignatureKey) (msgCtx : MessageContext) (now : Int) :
    Except Err Bool :=
  key.verifyMessage msgCtx key.options.responseHeaders now

/-- The same message carrying a Signature header with value `s` (the caller
writing the produced signature string onto the message before verification). -/
def withSignature (ctx : MessageContext) (s : String) : MessageContext :=
  { ctx with
    message :=
      { getHeader := fun name =>
          if name = "signature" then some [s] else ctx.message.getHeader name,
        requestTarget := ctx.message.requestTarget } }

/-! ## Key manager option merging (SignatureKeyManager.ts) -/

/-- firstDefined: the first non-undefined entry. -/
def firstDefined {α : Type} : List (Option α) → Option α
  | [] => none
  | some v :: _ => some v
  | none :: rest => firstDefined rest

/-- The manager's base option record over the three signature options. Fields
hold `none` where the runtime value is undefined (reachable when a caller
spreads an explicit undefined override into the construction config). -/
structure SignatureOptionsRec where
  requestHeaders : Option HeaderSpec
  responseHeaders : Option HeaderSpec
  calculateDigest : Option Bool
deriving DecidableEq, Repr

/-- An overrides record as consumed by getKeySigningOptions: for each option,
the outer Option is property presence (hasKey) and the inner Option is
defined-ness of the stored value. -/
structure SignatureOptionOverrides where
  requestHeaders : Option (Option HeaderSpec) := none
  responseHeaders : Option (Option HeaderSpec) := none
  calculateDigest : Option (Option Bool) := none
deriving DecidableEq, Repr

/-- One option of getKeySigningOptions: when the overrides object has the
property, take the first defined of (override, base) and fail on undefined;
otherwise keep the base value unchanged (even when it is undefined). -/
def mergeOption {α : Type} (keyId optionKey : String) (base : Option α)
    (override : Option (Option α)) : Except Err (Option α) :=
  match override with
  | none => .ok base
  | some overrideVal =>
    match firstDefined [overrideVal, base] with
    | none => .error (.configuration ("key config for " ++ keyId ++ " has unset option " ++ optionKey))
    | some v => .ok (some v)

/-- SignatureKeyManager.getKeySigningOptions over the three signature options
(the runtime record also carries unrelated construction keys, which merge
independently and are omitted). -/
def getKeySigningOptions (keyId : String) (base : SignatureOptionsRec)
    (overrides : SignatureOptionOverrides) : Except Err SignatureOptionsRec :=
  match mergeOption keyId "requestHeaders" base.requestHeaders overrides.requestHeaders with
  | .error e => .error e
  | .ok requestHeaders =>
  match mergeOption keyId "responseHeaders" base.responseHeaders overrides.responseHeaders with
  | .error e => .error e
  | .ok responseHeaders =>
  match mergeOption keyId "calculateDigest" base.calculateDigest overrides.calculateDigest with
  | .error e => .error e
  | .ok calculateDigest =>
    .ok { requestHeaders := requestHeaders, responseHeaders := responseHeaders,
          calculateDigest := calculateDigest }

/-- A key configuration as handed to tryGetKey: its per-key option overrides
live under the `options` property (types.ts: "Per-key optional overrides to
signing options"). -/
structure KeyConfig where
  signatureAlgorithm : SignatureAlgorithm
  options : SignatureOptionOverrides
deriving DecidableEq, Repr

/-- The option-resolution step of SignatureKeyManager.tryGetKey. The source
calls getKeySigningOptions(keyId, keyConfig), passing the key config object
itself as the overrides record; a KeyConfig object has no
requestHeaders/responseHeaders/calculateDigest own properties (they live
under `options`, which is never read), so hasKey is false for all three. -/
def tryGetKeyOptions (keyId : String) (base : SignatureOptionsRec) (_keyConfig : KeyConfig) :
    Except Err SignatureOptionsRec :=
  getKeySigningOptions keyId base
    { requestHeaders := none, responseHeaders := none, calculateDigest := none }

/-! ## Concrete instances used by the claims -/

/-- Scenario 1 message: GET /foo with the reference header set. -/
def scenario1Msg : HttpMessage :=
  { getHeader := fun name =>
      if name = "host" then some ["example.org"]
      else if name = "date" then some ["Tue, 07 Jun 2014 20:51:35 GMT"]
      else if name = "cache-control" then some ["max-age=60", "must-revalidate"]
      else if name = "x-emptyheader" then some [""]
      else if name = "x-example" then some ["Example header with some whitespace."]
      else none,
    requestTarget := some { method := "GET", path := "/foo" } }

def scenario1Ctx : MessageContext :=
  { message := scenario1Msg, options := { createdAt := some "1402170695" } }

def scenario1Headers : List String :=
  ["(request-target)", "(created)", "host", "date", "cache-control", "x-emptyheader", "x-example"]

/-- The header projection of the scenario-1 message over the signed names. -/
def scenario1Values : String → List String := fun h =>
  if h = "(request-target)" then ["get /foo"]
  else if h = "(created)" then ["1402170695"]
  else if h = "host" then ["example.org"]
  else if h = "date" then ["Tue, 07 Jun 2014 20:51:35 GMT"]
  else if h = "cache-control" then ["max-age=60", "must-revalidate"]
  else if h = "x-emptyheader" then [""]
  else if h = "x-example" then ["Example header with some whitespace."]
  else []

def scenario1Reference : String :=
  "(request-target): get /foo\n(created): 1402170695\nhost: example.org\ndate: Tue, 07 Jun 2014 20:51:35 GMT\ncache-control: max-age=60, must-revalidate\nx-emptyheader:\nx-example: Example header with some whitespace."

def emptyOpts : ConcreteSignatureOptions :=
  { requestHeaders := [], responseHeaders := [], calculateDigest := false }

/-- A 32-byte-output HMAC key (output length of HMAC-SHA256 and SHA-256). -/
def c2Key : SignatureKey :=
  { id := "k", hasher := fun _ => List.replicate 32 0, signatureAlgorithm := .hs2019,
    digestAlgorithm := .sha256, options := emptyOpts, sign := fun _ => List.replicate 32 0 }

/-- A key configured for the hmac-sha256 scheme. -/
def c3Key : SignatureKey :=
  { id := "key1", hasher := fun _ => [], signatureAlgorithm := .hmacSha256,
    digestAlgorithm := .sha256, options := emptyOpts, sign := fun _ => [0] }

/-- A message whose signature declares the rsa-sha256 scheme. -/
def c3Ctx : MessageContext :=
  { message :=
      { getHeader := fun name =>
          if name = "signature" then
            some ["keyId=\"key1\",algorithm=\"rsa-sha256\",signature=\"AQID\""]
          else none,
        requestTarget := none },
    options := {} }

/-- The parse of the c3Ctx signature at observation instant 0. -/
def c3RefSig : Signature :=
  { keyId := "key1", signature := [1, 2, 3], headers := ["(created)"],
    signatureAlgorithm := some .rsaSha256, observedAt := 0 }

/-- A key with calculateDigest on whose only configured request header is host. -/
def c4Key : SignatureKey :=
  { id := "k", hasher := fun _ => [], signatureAlgorithm := .hs2019,
    digestAlgorithm := .sha256,
    options := { requestHeaders := [("host", .both)], responseHeaders := [],
                 calculateDigest := true },
    sign := fun _ => [1, 2, 3] }

/-- A message carrying a signature whose declared header list omits digest. -/
def c4Ctx : MessageContext :=
  { message :=
      { getHeader := fun name =>
          if name = "host" then some ["foobar.com"]
          else if name = "signature" then
            some ["keyId=\"k\",headers=\"host\",signature=\"AQID\""]
          else none,
        requestTarget := none },
    options := {} }

/-- A key whose request-header spec tags x-extra verify-only. -/
def c6Key : SignatureKey :=
  { id := "k", hasher := fun _ => [], signatureAlgorithm := .hs2019,
    digestAlgorithm := .sha256,
    options := { requestHeaders := [("host", .both), ("x-extra", .verify)],
                 responseHeaders := [], calculateDigest := false },
    sign := fun _ => [7] }

/-- A message carrying values for every header in the c6Key sign set
(and for x-extra as well). -/
def c6Ctx : MessageContext :=
  { message :=
      { getHeader := fun name =>
          if name = "host" then some ["h"]
          else if name = "x-extra" then some ["v"]
          else none,
        requestTarget := none },
    options := {} }

/-- The signature string c6Key produces for c6Ctx. -/
def c6SigStr : String := "keyId=\"k\",algorithm=\"hs2019\",headers=\"host\",signature=\"Bw==\""

/-- A key with the default header spec and calculateDigest on. -/
def c6wKey : SignatureKey :=
  { id := "test", hasher := fun _ => [], signatureAlgorithm := .hs2019,
    digestAlgorithm := .sha256,
    options := { requestHeaders := [("(request-target)", .both), ("host", .both)],
                 responseHeaders := [], calculateDigest := true },
    sign := fun _ => [7] }

/-- A request carrying all signed headers, including a digest header. -/
def c6wCtx : MessageContext :=
  { message :=
      { getHeader := fun name =>
          if name = "host" then some ["foobar.com"]
          else if name = "digest" then some ["SHA-256=abc"]
          else none,
        requestTarget := some { method := "POST", path := "/" } },
    options := {} }

def c6wPayload : String :=
  "(request-target): post /\nhost: foobar.com\ndigest: SHA-256=abc"

def c6wSigStr : String :=
  "keyId=\"test\",algorithm=\"hs2019\",headers=\"(request-target) host digest\",signature=\"Bw==\""

def c7ObservedAt : Int := 1000000000000

def c7GoodHeader : String := "keyId=\"t\",created=1000000059,signature=\"AQID\""

def c7BadHeader : String := "keyId=\"t\",created=1000000061,signature=\"AQID\""

def c8Base : SignatureOptionsRec :=
  { requestHeaders := some [("(request-target)", .both), ("host", .both)],
    responseHeaders := some [], calculateDigest := some true }

/-- A key config carrying a per-key override turning calculateDigest off. -/
def c8KeyConfig : KeyConfig :=
  { signatureAlgorithm := .hs2019,
    options := { calculateDigest := some (some false) } }

/-- A message without request target and without any header. -/
def c9Ctx : MessageContext :=
  { message := { getHeader := fun _ => none, requestTarget := none }, options := {} }

/-- A message carrying host but no date header. -/
def c9bCtx : MessageContext :=
  { message :=
      { getHeader := fun name => if name = "host" then some ["example.org"] else none,
        requestTarget := none },
    options := {} }

/-- Two messages whose x-example values differ only in trailing whitespace. -/
def c10aCtx : MessageContext :=
  { message :=
      { getHeader := fun name => if name = "x-example" then some ["a"] else none,
        requestTarget := none },
    options := {} }

def c10bCtx : MessageContext :=
  { message :=
      { getHeader := fun name => if name = "x-example" then some ["a  "] else none,
        requestTarget := none },
    options := {} }

/-- Character-level join with a single-character separator. -/
def joinChar (sep : Char) : List (List Char) → List Char
  | [] => []
  | [x] => x
  | x :: xs => x ++ sep :: joinChar sep xs

/-! ## Helper lemmas: strings and lists -/

theorem strData_append (a b : String) : (a ++ b).data = a.data ++ b.data := by
  cases a; cases b; rfl

theorem strMk_data (s : String) : String.mk s.data = s := by
  cases s; rfl

theorem strMk_inj {a b : List Char} (h : String.mk a = String.mk b) : a = b := by
  cases h; rfl

theorem map_id_on {α : Type} (f : α → α) :
    ∀ l : List α, (∀ a ∈ l, f a = a) → l.map f = l
  | [], _ => rfl
  | a :: as, h => by
    rw [List.map_cons, h a (List.mem_cons_self a as),
      map_id_on f as (fun x hx => h x (List.mem_cons_of_mem _ hx))]

theorem mapExcept_ok_of_all {α β : Type} (f : α → Except Err β) (g : α → β) :
    ∀ l : List α, (∀ a ∈ l, f a = .ok (g a)) → mapExcept f l = .ok (l.map g)
  | [], _ => rfl
  | a :: as, h => by
    have ih := mapExcept_ok_of_all f g as (fun x hx => h x (List.mem_cons_of_mem _ hx))
    simp [mapExcept, h a (List.mem_cons_self a as), ih]

theorem mapExcept_error_at {α β : Type} (f : α → Except Err β) (x : α) (e : Err)
    (hx : f x = .error e) :
    ∀ (pre post : List α), (∀ a ∈ pre, ∃ b, f a = .ok b) →
      mapExcept f (pre ++ x :: post) = .error e
  | [], post, _ => by simp [mapExcept, hx]
  | a :: pre, post, h => by
    obtain ⟨b, hb⟩ := h a (List.mem_cons_self a pre)
    have ih := mapExcept_error_at f x e hx pre post (fun y hy => h y (List.mem_cons_of_mem _ hy))
    simp [mapExcept, hb, ih]

theorem mapExcept_congr {α β : Type} (f g : α → Except Err β) :
    ∀ l : List α, (∀ a ∈ l, f a = g a) → mapExcept f l = mapExcept g l
  | [], _ => rfl
  | a :: as, h => by
    have ih := mapExcept_congr f g as (fun x hx => h x (List.mem_cons_of_mem _ hx))
    simp [mapExcept, h a (List.mem_cons_self a as), ih]

theorem dropWhile_append_split {α : Type} (p : α → Bool) :
    ∀ x y : List α, List.dropWhile p (x ++ y) =
      if (List.dropWhile p x).isEmpty then List.dropWhile p y else List.dropWhile p x ++ y
  | [], y => by simp [List.dropWhile]
  | a :: x, y => by
    by_cases hp : p a
    · simpa [List.dropWhile, hp] using dropWhile_append_split p x y
    · simp [List.dropWhile, hp]

theorem rtrimChars_append_congr (a : List Char) {b1 b2 : List Char}
    (h : rtrimChars b1 = rtrimChars b2) :
    rtrimChars (a ++ b1) = rtrimChars (a ++ b2) := by
  have h' : List.dropWhile isJsWs b1.reverse = List.dropWhile isJsWs b2.reverse := by
    have := congrArg List.reverse h
    simpa [rtrimChars] using this
  unfold rtrimChars
  rw [List.reverse_append, List.reverse_append, dropWhile_append_split, dropWhile_append_split, h']

theorem jsTrimEnd_append_congr (a : String) {b1 b2 : String}
    (h : jsTrimEnd b1 = jsTrimEnd b2) : jsTrimEnd (a ++ b1) = jsTrimEnd (a ++ b2) := by
  unfold jsTrimEnd at *
  rw [strData_append, strData_append, rtrimChars_append_congr a.data (strMk_inj h)]

/-! ## Helper lemmas: split and join -/

theorem splitCharAux_ne_nil (sep : Char) : ∀ l : List Char, splitCharAux sep l ≠ []
  | [] => by simp [splitCharAux]
  | c :: cs => by
    have := splitCharAux_ne_nil sep cs
    unfold splitCharAux
    cases hcs : splitCharAux sep cs with
    | nil => exact absurd hcs this
    | cons cur rest =>
      by_cases hc : c = sep <;> simp [hc]

theorem splitCharAux_append (sep : Char) :
    ∀ (l r : List Char), (∀ c ∈ l, c ≠ sep) →
      ∀ cur rest, splitCharAux sep r = cur :: rest →
        splitCharAux sep (l ++ r) = (l ++ cur) :: rest
  | [], r, _, cur, rest, hr => by simpa using hr
  | c :: l, r, h, cur, rest, hr => by
    have ih := splitCharAux_append sep l r (fun x hx => h x (List.mem_cons_of_mem _ hx)) cur rest hr
    have hc : c ≠ sep := h c (List.mem_cons_self c l)
    simp [splitCharAux, List.cons_append, ih, hc]

theorem splitCharAux_join (sep : Char) :
    ∀ parts : List (List Char), parts ≠ [] → (∀ p ∈ parts, ∀ c ∈ p, c ≠ sep) →
      splitCharAux sep (joinChar sep parts) = parts
  | [], h, _ => absurd rfl h
  | [p], _, hc => by
    have : splitCharAux sep (p ++ ([] : List Char)) = (p ++ []) :: [] :=
      splitCharAux_append sep p [] (hc p (List.mem_cons_self p [])) [] [] rfl
    simpa [joinChar] using this
  | p :: q :: ps, _, hc => by
    have ih := splitCharAux_join sep (q :: ps) (by simp)
      (fun x hx => hc x (List.mem_cons_of_mem _ hx))
    cases hqs : splitCharAux sep (joinChar sep (q :: ps)) with
    | nil => exact absurd hqs (splitCharAux_ne_nil sep _)
    | cons cur rest =>
      rw [hqs] at ih
      cases ih
      have hsepstep : splitCharAux sep (sep :: joinChar sep (q :: ps)) = [] :: q :: ps := by
        unfold splitCharAux
        rw [hqs]
        simp
      have := splitCharAux_append sep p (sep :: joinChar sep (q :: ps))
        (hc p (List.mem_cons_self p _)) [] (q :: ps) hsepstep
      simpa [joinChar] using this

theorem joinSep_data (sep : Char) :
    ∀ parts : List String,
      (joinSep (String.mk [sep]) parts).data = joinChar sep (parts.map String.data)
  | [] => rfl
  | [x] => rfl
  | x :: y :: xs => by
    have ih := joinSep_data sep (y :: xs)
    simp only [joinSep, joinChar, List.map_cons]
    rw [strData_append, strData_append, ih]
    simp [List.append_assoc]

theorem jsSplit_join (sep : Char) (parts : List String) (hne : parts ≠ [])
    (hc : ∀ p ∈ parts, ∀ c ∈ p.data, c ≠ sep) :
    jsSplit sep (joinSep (String.mk [sep]) parts) = parts := by
  unfold jsSplit
  rw [joinSep_data]
  rw [splitCharAux_join sep (parts.map String.data)
    (by simpa using hne)
    (by
      intro p hp c hcp
      obtain ⟨q, hq, rfl⟩ := List.mem_map.mp hp
      exact hc q hq c hcp)]
  rw [List.map_map]
  exact map_id_on _ parts (fun a _ => strMk_data a)

theorem idxOfChar_key (c : Char) :
    ∀ (k v : List Char), (∀ a ∈ k, a ≠ c) → idxOfChar c (k ++ c :: v) = some k.length
  | [], v, _ => by simp [idxOfChar]
  | a :: k, v, h => by
    have ih := idxOfChar_key c k v (fun x hx => h x (List.mem_cons_of_mem _ hx))
    simp [idxOfChar, h a (List.mem_cons_self a k), ih]

theorem joinSep_no_char (sep : String) (bad : Char) (hsep : bad ∉ sep.data) :
    ∀ parts : List String, (∀ p ∈ parts, bad ∉ p.data) → bad ∉ (joinSep sep parts).data
  | [], _ => by simp [joinSep]
  | [x], h => by simpa [joinSep] using h x (List.mem_cons_self x [])
  | x :: y :: xs, h => by
    have ih := joinSep_no_char sep bad hsep (y :: xs) (fun p hp => h p (List.mem_cons_of_mem _ hp))
    have hx := h x (List.mem_cons_self x _)
    simp only [joinSep, strData_append]
    intro hmem
    rcases List.mem_append.mp hmem with h1 | h2
    · rcases List.mem_append.mp h1 with h3 | h4
      · exact hx h3
      · exact hsep h4
    · exact ih h2

/-! ## Helper lemmas: base64 -/

theorem b64Val_b64Char : ∀ v < 64, b64Val (b64Char v) = some v := by decide

theorem b64Char_clean : ∀ v < 64,
    b64Char v ≠ '=' ∧ b64Char v ≠ ',' ∧ b64Char v ≠ '"' ∧ b64Char v ≠ ' ' := by decide

theorem b64_roundtrip :
    ∀ bytes : List Nat, (∀ b ∈ bytes, b < 256) →
      b64DecodeSextets ((b64EncodeChunks bytes).filterMap b64Val) = bytes
  | [], _ => rfl
  | [b1], h => by
    have h1 : b1 < 256 := h b1 (by simp)
    simp only [b64EncodeChunks, List.filterMap_cons]
    rw [b64Val_b64Char _ (by omega), b64Val_b64Char _ (by omega)]
    have hpad : b64Val '=' = none := by decide
    simp only [hpad, List.filterMap_cons, List.filterMap_nil]
    simp only [b64DecodeSextets, List.cons.injEq, and_true]
    omega
  | [b1, b2], h => by
    have h1 : b1 < 256 := h b1 (by simp)
    have h2 : b2 < 256 := h b2 (by simp)
    simp only [b64EncodeChunks, List.filterMap_cons]
    rw [b64Val_b64Char _ (by omega), b64Val_b64Char _ (by omega), b64Val_b64Char _ (by omega)]
    have hpad : b64Val '=' = none := by decide
    simp only [hpad, List.filterMap_cons, List.filterMap_nil]
    simp only [b64DecodeSextets, List.cons.injEq, and_true]
    exact ⟨by omega, by omega⟩
  | b1 :: b2 :: b3 :: rest, h => by
    have h1 : b1 < 256 := h b1 (by simp)
    have h2 : b2 < 256 := h b2 (by simp)
    have h3 : b3 < 256 := h b3 (by simp)
    have ih := b64_roundtrip rest (fun x hx => h x (by simp; tauto))
    simp only [b64EncodeChunks, List.filterMap_cons]
    rw [b64Val_b64Char _ (by omega), b64Val_b64Char _ (by omega),
      b64Val_b64Char _ (by omega), b64Val_b64Char _ (by omega)]
    simp only [b64DecodeSextets, ih, List.cons.injEq]
    refine ⟨by omega, by omega, by omega, trivial⟩

theorem filter_padding_cons_of_ne {c : Char} (h : c ≠ '=') (l : List Char) :
    List.filter (fun x => x != '=') (c :: l) = c :: List.filter (fun x => x != '=') l := by
  simp [List.filter_cons, h]

theorem filter_padding_cons_pad (l : List Char) :
    List.filter (fun x => x != '=') ('=' :: l) = List.filter (fun x => x != '=') l := by
  simp [List.filter_cons]

theorem b64_unpadded_len :
    ∀ bytes : List Nat, (∀ b ∈ bytes, b < 256) →
      ((b64EncodeChunks bytes).filter (fun c => c != '=')).length * 3 / 4 = bytes.length
  | [], _ => rfl
  | [b1], h => by
    have h1 : b1 < 256 := h b1 (by simp)
    have c1 := (b64Char_clean (b1 / 4) (by omega)).1
    have c2 := (b64Char_clean (b1 % 4 * 16) (by omega)).1
    simp only [b64EncodeChunks]
    rw [filter_padding_cons_of_ne c1, filter_padding_cons_of_ne c2,
      filter_padding_cons_pad, filter_padding_cons_pad, List.filter_nil]
    simp only [List.length_cons, List.length_nil, List.length_singleton]
  | [b1, b2], h => by
    have h1 : b1 < 256 := h b1 (by simp)
    have h2 : b2 < 256 := h b2 (by simp)
    have c1 := (b64Char_clean (b1 / 4) (by omega)).1
    have c2 := (b64Char_clean (b1 % 4 * 16 + b2 / 16) (by omega)).1
    have c3 := (b64Char_clean (b2 % 16 * 4) (by omega)).1
    simp only [b64EncodeChunks]
    rw [filter_padding_cons_of_ne c1, filter_padding_cons_of_ne c2,
      filter_padding_cons_of_ne c3, filter_padding_cons_pad, List.filter_nil]
    simp only [List.length_cons, List.length_nil]
  | b1 :: b2 :: b3 :: rest, h => by
    have h1 : b1 < 256 := h b1 (by simp)
    have h2 : b2 < 256 := h b2 (by simp)
    have h3 : b3 < 256 := h b3 (by simp)
    have ih := b64_unpadded_len rest (fun x hx => h x (by simp; tauto))
    have c1 := (b64Char_clean (b1 / 4) (by omega)).1
    have c2 := (b64Char_clean (b1 % 4 * 16 + b2 / 16) (by omega)).1
    have c3 := (b64Char_clean (b2 % 16 * 4 + b3 / 64) (by omega)).1
    have c4 := (b64Char_clean (b3 % 64) (by omega)).1
    simp only [b64EncodeChunks]
    rw [filter_padding_cons_of_ne c1, filter_padding_cons_of_ne c2,
      filter_padding_cons_of_ne c3, filter_padding_cons_of_ne c4]
    simp only [List.length_cons]
    omega

theorem mem_b64_encode :
    ∀ (bytes : List Nat), (∀ b ∈ bytes, b < 256) →
      ∀ c ∈ b64EncodeChunks bytes, (∃ v, v < 64 ∧ c = b64Char v) ∨ c = '='
  | [], _ => by simp [b64EncodeChunks]
  | [b1], h => by
    have h1 : b1 < 256 := h b1 (by simp)
    intro c hc
    simp only [b64EncodeChunks, List.mem_cons, List.not_mem_nil, or_false] at hc
    rcases hc with rfl | rfl | rfl | rfl
    · exact .inl ⟨b1 / 4, by omega, rfl⟩
    · exact .inl ⟨b1 % 4 * 16, by omega, rfl⟩
    · exact .inr rfl
    · exact .inr rfl
  | [b1, b2], h => by
    have h1 : b1 < 256 := h b1 (by simp)
    have h2 : b2 < 256 := h b2 (by simp)
    intro c hc
    simp only [b64EncodeChunks, List.mem_cons, List.not_mem_nil, or_false] at hc
    rcases hc with rfl | rfl | rfl | rfl
    · exact .inl ⟨b1 / 4, by omega, rfl⟩
    · exact .inl ⟨b1 % 4 * 16 + b2 / 16, by omega, rfl⟩
    · exact .inl ⟨b2 % 16 * 4, by omega, rfl⟩
    · exact .inr rfl
  | b1 :: b2 :: b3 :: rest, h => by
    have h1 : b1 < 256 := h b1 (by simp)
    have h2 : b2 < 256 := h b2 (by simp)
    have h3 : b3 < 256 := h b3 (by simp)
    have ih := mem_b64_encode rest (fun x hx => h x (by simp; tauto))
    intro c hc
    simp only [b64EncodeChunks, List.mem_cons] at hc
    rcases hc with rfl | rfl | rfl | rfl | hmem
    · exact .inl ⟨b1 / 4, by omega, rfl⟩
    · exact .inl ⟨b1 % 4 * 16 + b2 / 16, by omega, rfl⟩
    · exact .inl ⟨b2 % 16 * 4 + b3 / 64, by omega, rfl⟩
    · exact .inl ⟨b3 % 64, by omega, rfl⟩
    · exact ih c hmem

theorem base64Encode_no_comma (bytes : List Nat) (h : ∀ b ∈ bytes, b < 256) :
    ',' ∉ (base64Encode bytes).data := by
  intro hmem
  rcases mem_b64_encode bytes h ',' hmem with ⟨v, hv, hc⟩ | hc
  · exact (b64Char_clean v hv).2.1 hc.symm
  · exact absurd hc (by decide)

theorem base64Decode_encode (bytes : List Nat) (h : ∀ b ∈ bytes, b < 256) :
    base64Decode (base64Encode bytes) = bytes := by
  unfold base64Decode base64Encode
  exact b64_roundtrip bytes h

/-! ## Helper lemmas: parsing the emitted parameter string -/

theorem quoteWrap_data (v : String) : ("\"" ++ v ++ "\"").data = '"' :: (v.data ++ ['"']) := by
  rw [strData_append, strData_append]
  rfl

theorem strMk_cons_ne_empty (c : Char) (l : List Char) : String.mk (c :: l) ≠ "" := by
  intro h
  exact absurd (strMk_inj (h.trans rfl)) (by simp)

theorem quoteWrap_ne_empty (v : String) : ("\"" ++ v ++ "\"") ≠ "" := by
  intro h
  have := congrArg String.data h
  rw [quoteWrap_data] at this
  simp at this

theorem parseStringField_quoted (x : String) :
    parseStringField ("\"" ++ x ++ "\"") = .ok x := by
  unfold parseStringField strStarts strEnds
  rw [quoteWrap_data]
  have hstart : listStarts ('"' :: (x.data ++ ['"'])) ("\"" : String).data = true := by
    simp [listStarts]
  have hrev : ('"' :: (x.data ++ ['"'])).reverse = '"' :: (x.data.reverse ++ ['"']) := by
    simp
  have hend : listStarts ('"' :: (x.data ++ ['"'])).reverse ("\"" : String).data.reverse = true := by
    rw [hrev]
    simp [listStarts]
  rw [hstart, hend]
  simp only [Bool.and_self, if_true]
  rw [List.drop_succ_cons, List.drop_zero, List.dropLast_concat, strMk_data]

theorem kv_data (k v : String) :
    (kvQuoted k v).data = k.data ++ '=' :: '"' :: (v.data ++ ['"']) := by
  unfold kvQuoted
  rw [strData_append, strData_append, strData_append]
  simp [List.append_assoc]

theorem kvQuoted_no_comma (k v : String) (hk : ',' ∉ k.data) (hv : ',' ∉ v.data) :
    ',' ∉ (kvQuoted k v).data := by
  rw [kv_data]
  intro hmem
  rcases List.mem_append.mp hmem with h1 | h2
  · exact hk h1
  · rcases List.mem_cons.mp h2 with h3 | h4
    · exact absurd h3 (by decide)
    · rcases List.mem_cons.mp h4 with h5 | h6
      · exact absurd h5 (by decide)
      · rcases List.mem_append.mp h6 with h7 | h8
        · exact hv h7
        · exact absurd (List.mem_singleton.mp h8) (by decide)

theorem pairsToMapStep_kv (acc : List (String × String)) (k v : String)
    (hk_ne : '=' ∉ k.data) (hk_empty : (k == "") = false)
    (hk_ws : k.data.any isJsWs = false)
    (hdup : ((acc.map Prod.fst).contains k) = false) :
    pairsToMapStep acc (kvQuoted k v) = .ok (acc ++ [(k, "\"" ++ v ++ "\"")]) := by
  unfold pairsToMapStep
  rw [kv_data]
  rw [idxOfChar_key '=' k.data ('"' :: (v.data ++ ['"'])) (fun a ha hh => hk_ne (hh ▸ ha))]
  have htake : (k.data ++ '=' :: '"' :: (v.data ++ ['"'])).take k.data.length = k.data := by
    simp [List.take_left]
  have hdrop : (k.data ++ '=' :: '"' :: (v.data ++ ['"'])).drop (k.data.length + 1) =
      '"' :: (v.data ++ ['"']) := by
    have he : k.data ++ '=' :: '"' :: (v.data ++ ['"']) =
        (k.data ++ ['=']) ++ ('"' :: (v.data ++ ['"'])) := by simp
    rw [he]
    have hlen : k.data.length + 1 = (k.data ++ ['=']).length := by simp
    rw [hlen]
    exact List.drop_left _ _
  simp only [htake, hdrop, strMk_data]
  have hval : String.mk ('"' :: (v.data ++ ['"'])) = "\"" ++ v ++ "\"" := by
    rw [← quoteWrap_data, strMk_data]
  rw [hval]
  have hvne : (("\"" ++ v ++ "\"") == "") = false := by
    rw [beq_eq_false_iff_ne]
    exact quoteWrap_ne_empty v
  rw [hk_empty, hvne, hk_ws, hdup]
  simp

theorem pairsToMapAux_cons_ok (acc : List (String × String)) (p : String)
    (ps : List String) (acc2 : List (String × String))
    (h : pairsToMapStep acc p = .ok acc2) :
    pairsToMapAux acc (p :: ps) = pairsToMapAux acc2 ps := by
  have e : pairsToMapAux acc (p :: ps) =
      (match pairsToMapStep acc p with
       | .error e => .error e
       | .ok a2 => pairsToMapAux a2 ps) := rfl
  rw [e, h]

theorem pairsToMap_format (i a h s : String) :
    pairsToMap [kvQuoted "keyId" i, kvQuoted "algorithm" a,
      kvQuoted "headers" h, kvQuoted "signature" s] =
    .ok [("keyId", "\"" ++ i ++ "\""), ("algorithm", "\"" ++ a ++ "\""),
         ("headers", "\"" ++ h ++ "\""), ("signature", "\"" ++ s ++ "\"")] := by
  unfold pairsToMap
  rw [pairsToMapAux_cons_ok _ _ _ _
    (pairsToMapStep_kv _ "keyId" i (by decide) (by decide) (by decide) (by rfl))]
  rw [pairsToMapAux_cons_ok _ _ _ _
    (pairsToMapStep_kv _ "algorithm" a (by decide) (by decide) (by decide) (by rfl))]
  rw [pairsToMapAux_cons_ok _ _ _ _
    (pairsToMapStep_kv _ "headers" h (by decide) (by decide) (by decide) (by rfl))]
  rw [pairsToMapAux_cons_ok _ _ _ _
    (pairsToMapStep_kv _ "signature" s (by decide) (by decide) (by decide) (by rfl))]
  rfl

theorem fromWire_wire (alg : SignatureAlgorithm) :
    SignatureAlgorithm.fromWire alg.wire = some alg := by
  cases alg <;> rfl

theorem wire_no_comma (alg : SignatureAlgorithm) : ',' ∉ alg.wire.data := by
  cases alg <;> decide

theorem quoteWrap_beq_empty (v : String) : (("\"" ++ v ++ "\"") == "") = false := by
  rw [beq_eq_false_iff_ne]
  exact quoteWrap_ne_empty v

theorem getKeyId_format (i a h s : String) :
    getKeyId [("keyId", "\"" ++ i ++ "\""), ("algorithm", "\"" ++ a ++ "\""),
      ("headers", "\"" ++ h ++ "\""), ("signature", "\"" ++ s ++ "\"")] = .ok i := by
  unfold getKeyId
  have hm : mapGet [("keyId", "\"" ++ i ++ "\""), ("algorithm", "\"" ++ a ++ "\""),
      ("headers", "\"" ++ h ++ "\""), ("signature", "\"" ++ s ++ "\"")] "keyId" =
      some ("\"" ++ i ++ "\"") := rfl
  rw [hm]
  simp [quoteWrap_beq_empty, parseStringField_quoted]

theorem getSignatureAlgorithm_format (i h s : String) (alg : SignatureAlgorithm) :
    getSignatureAlgorithm [("keyId", "\"" ++ i ++ "\""), ("algorithm", "\"" ++ alg.wire ++ "\""),
      ("headers", "\"" ++ h ++ "\""), ("signature", "\"" ++ s ++ "\"")] = .ok (some alg) := by
  unfold getSignatureAlgorithm
  have hm : mapGet [("keyId", "\"" ++ i ++ "\""), ("algorithm", "\"" ++ alg.wire ++ "\""),
      ("headers", "\"" ++ h ++ "\""), ("signature", "\"" ++ s ++ "\"")] "algorithm" =
      some ("\"" ++ alg.wire ++ "\"") := rfl
  rw [hm]
  simp [quoteWrap_beq_empty, parseStringField_quoted, fromWire_wire]

theorem getHeaders_format (i a s : String) (hs : List String) (hhs_ne : hs ≠ [])
    (hwf : ∀ n ∈ hs, n.data ≠ [] ∧ asciiLower n = n ∧ (∀ c ∈ n.data, isJsWs c = false)) :
    getHeaders [("keyId", "\"" ++ i ++ "\""), ("algorithm", "\"" ++ a ++ "\""),
      ("headers", "\"" ++ joinSep " " hs ++ "\""), ("signature", "\"" ++ s ++ "\"")] = .ok hs := by
  unfold getHeaders
  have hm : mapGet [("keyId", "\"" ++ i ++ "\""), ("algorithm", "\"" ++ a ++ "\""),
      ("headers", "\"" ++ joinSep " " hs ++ "\""), ("signature", "\"" ++ s ++ "\"")] "headers" =
      some ("\"" ++ joinSep " " hs ++ "\"") := rfl
  rw [hm]
  have hsep : (" " : String) = String.mk [' '] := rfl
  have hsplit : jsSplit ' ' (joinSep " " hs) = hs := by
    rw [hsep]
    exact jsSplit_join ' ' hs hhs_ne (fun p hp c hc hceq =>
      by simpa [isJsWs, hceq] using (hwf p hp).2.2 c hc)
  have hmap : List.map asciiLower hs = hs := map_id_on asciiLower hs (fun n hn => (hwf n hn).2.1)
  simp [quoteWrap_beq_empty, parseStringField_quoted, hsplit, hmap]
  intro x hx
  obtain ⟨hne, _, hws⟩ := hwf x hx
  refine ⟨?_, hws⟩
  exact fun h0 => hne (List.length_eq_zero.mp h0)

theorem getSignatureField_format (i a h : String) (bytes : List Nat)
    (hbytes : ∀ b ∈ bytes, b < 256) (hne : bytes ≠ []) :
    getSignatureField [("keyId", "\"" ++ i ++ "\""), ("algorithm", "\"" ++ a ++ "\""),
      ("headers", "\"" ++ h ++ "\""), ("signature", "\"" ++ base64Encode bytes ++ "\"")] =
      .ok bytes := by
  unfold getSignatureField
  have hm : mapGet [("keyId", "\"" ++ i ++ "\""), ("algorithm", "\"" ++ a ++ "\""),
      ("headers", "\"" ++ h ++ "\""), ("signature", "\"" ++ base64Encode bytes ++ "\"")]
      "signature" = some ("\"" ++ base64Encode bytes ++ "\"") := rfl
  rw [hm]
  have hdec : base64Decode (base64Encode bytes) = bytes := base64Decode_encode bytes hbytes
  have hlen : ((base64Encode bytes).data.filter (fun c => c != '=')).length * 3 / 4 =
      bytes.length := b64_unpadded_len bytes hbytes
  have h2 : (bytes.length == 0) = false := by
    rw [beq_eq_false_iff_ne]
    simpa [List.length_eq_zero] using hne
  simp [quoteWrap_beq_empty, parseStringField_quoted, hdec, hlen, h2]

theorem fromHeader_format (i : String) (alg : SignatureAlgorithm) (hs : List String)
    (bytes : List Nat) (atTime : Option Int) (now : Int)
    (hi : ',' ∉ i.data)
    (hbytes : ∀ b ∈ bytes, b < 256) (hbne : bytes ≠ [])
    (hhs_ne : hs ≠ [])
    (hwf : ∀ n ∈ hs, n.data ≠ [] ∧ asciiLower n = n ∧ (∀ c ∈ n.data, isJsWs c = false) ∧
      ',' ∉ n.data) :
    Signature.fromHeader (formatParams i alg.wire (joinSep " " hs) (base64Encode bytes))
      atTime now =
    .ok { keyId := i, signature := bytes, headers := hs, signatureAlgorithm := some alg,
          created := none, expires := none, observedAt := atTime.getD now } := by
  have hcomma : ("," : String) = String.mk [','] := rfl
  have hsplit : jsSplit ',' (formatParams i alg.wire (joinSep " " hs) (base64Encode bytes)) =
      [kvQuoted "keyId" i, kvQuoted "algorithm" alg.wire,
       kvQuoted "headers" (joinSep " " hs), kvQuoted "signature" (base64Encode bytes)] := by
    unfold formatParams
    rw [hcomma]
    refine jsSplit_join ',' _ (by simp) ?_
    intro p hp c hc hceq
    subst hceq
    simp only [List.mem_cons, List.not_mem_nil, or_false] at hp
    rcases hp with rfl | rfl | rfl | rfl
    · exact kvQuoted_no_comma "keyId" i (by decide) hi hc
    · exact kvQuoted_no_comma "algorithm" alg.wire (by decide) (wire_no_comma alg) hc
    · exact kvQuoted_no_comma "headers" (joinSep " " hs) (by decide)
        (joinSep_no_char " " ',' (by decide) hs (fun p hp => (hwf p hp).2.2.2)) hc
    · exact kvQuoted_no_comma "signature" (base64Encode bytes) (by decide)
        (base64Encode_no_comma bytes hbytes) hc
  unfold Signature.fromHeader
  rw [hsplit, pairsToMap_format]
  simp only [getKeyId_format, getSignatureAlgorithm_format,
    getHeaders_format i alg.wire (base64Encode bytes) hs hhs_ne
      (fun n hn => ⟨(hwf n hn).1, (hwf n hn).2.1, (hwf n hn).2.2.1⟩),
    getSignatureField_format i alg.wire (joinSep " " hs) bytes hbytes hbne]
  have hcreated : getCreated [("keyId", "\"" ++ i ++ "\""), ("algorithm", "\"" ++ alg.wire ++ "\""),
      ("headers", "\"" ++ joinSep " " hs ++ "\""),
      ("signature", "\"" ++ base64Encode bytes ++ "\"")] = .ok none := rfl
  have hexpires : getExpires [("keyId", "\"" ++ i ++ "\""), ("algorithm", "\"" ++ alg.wire ++ "\""),
      ("headers", "\"" ++ joinSep " " hs ++ "\""),
      ("signature", "\"" ++ base64Encode bytes ++ "\"")] = .ok none := rfl
  rw [hcreated, hexpires]

/-! ## Helper lemmas: message context -/

theorem getHeader_withSignature (ctx : MessageContext) (S : String) (name : String)
    (h : asciiLower name ≠ "signature") :
    (withSignature ctx S).getHeader name = ctx.getHeader name := by
  unfold MessageContext.getHeader withSignature
  by_cases h1 : asciiLower name = "(request-target)"
  · simp [h1]
  · by_cases h2 : asciiLower name = "(created)"
    · simp [h1, h2]
    · by_cases h3 : asciiLower name = "(expires)"
      · simp [h1, h2, h3]
      · simp [h1, h2, h3, h]

theorem canonicalLine_withSignature (ctx : MessageContext) (S : String) (n : String)
    (h : asciiLower (asciiLower n) ≠ "signature") :
    (withSignature ctx S).canonicalLine n = ctx.canonicalLine n := by
  unfold MessageContext.canonicalLine
  dsimp only
  rw [getHeader_withSignature ctx S (asciiLower n) h]

theorem canonicalString_withSignature (ctx : MessageContext) (S : String) (hs : List String)
    (h : ∀ n ∈ hs, asciiLower (asciiLower n) ≠ "signature") :
    (withSignature ctx S).canonicalString hs = ctx.canonicalString hs := by
  unfold MessageContext.canonicalString
  rw [mapExcept_congr _ _ hs (fun n hn => canonicalLine_withSignature ctx S n (h n hn))]

theorem getHeader_plain (ctx : MessageContext) (name : String)
    (h1 : asciiLower name ≠ "(request-target)") (h2 : asciiLower name ≠ "(created)")
    (h3 : asciiLower name ≠ "(expires)") :
    ctx.getHeader name = .ok (ctx.message.getHeader (asciiLower name)) := by
  unfold MessageContext.getHeader
  simp [h1, h2, h3]

theorem getSignature_withSignature (ctx : MessageContext) (S : String)
    (hauth : ctx.message.getHeader "authorization" = none) (atTime : Option Int) (now : Int) :
    (withSignature ctx S).getSignature atTime now =
      match Signature.fromHeader S atTime now with
      | .error e => .error e
      | .ok sig => .ok (some sig) := by
  unfold MessageContext.getSignature
  have hsig : (withSignature ctx S).getHeader "signature" = .ok (some [S]) := by
    rw [getHeader_plain _ "signature" (by decide) (by decide) (by decide)]
    have e : asciiLower "signature" = "signature" := by decide
    rw [e]
    unfold withSignature
    simp
  have hau : (withSignature ctx S).getHeader "authorization" = .ok none := by
    rw [getHeader_plain _ "authorization" (by decide) (by decide) (by decide)]
    have e : asciiLower "authorization" = "authorization" := by decide
    rw [e]
    unfold withSignature
    simp [hauth]
  rw [hsig, hau]
  rfl

/-! ## Claim theorems -/

/-- Claim C7: validCreation is true iff created - observedAt < CREATED_SLACK
(60 000 ms) and validExpires is true iff observedAt - expires < EXPIRES_SLACK;
absent timestamps are vacuously valid; and at observedAt = 10^12 ms a created
of floor((10^12 + 60 000)/1000) - 1 seconds is valid while + 1 in place of - 1
is not. -/
theorem c7_slack_windows :
    (∀ (s : Signature) (c : Int), s.created = some c →
      (s.validCreation = true ↔ c - s.observedAt < CREATED_SLACK)) ∧
    (∀ s : Signature, s.created = none → s.validCreation = true) ∧
    (∀ (s : Signature) (e : Int), s.expires = some e →
      (s.validExpires = true ↔ s.observedAt - e < EXPIRES_SLACK)) ∧
    (∀ s : Signature, s.expires = none → s.validExpires = true) ∧
    (Signature.fromHeader c7GoodHeader (some c7ObservedAt) 0).map Signature.validCreation
      = .ok true ∧
    (Signature.fromHeader c7BadHeader (some c7ObservedAt) 0).map Signature.validCreation
      = .ok false := by
  refine ⟨?_, ?_, ?_, ?_, by decide, by decide⟩
  · intro s c hc
    simp [Signature.validCreation, hc]
  · intro s hc
    simp [Signature.validCreation, hc]
  · intro s e he
    simp [Signature.validExpires, he]
  · intro s he
    simp [Signature.validExpires, he]

theorem c7_slack_windows_witness :
    Signature.validCreation ⟨"t", [1], ["(created)"], none, some 59000, none, 0⟩ = true :=
  (c7_slack_windows.1 _ 59000 rfl).mpr (by decide)

/-- Claim C5: Signature.fromHeader raises a VerificationError on each
strict-parser rejection input: leading/trailing/double comma, quoted numeric
field, unquoted string field, whitespace after a comma, created=01 / -1 /
1234.56, expires=.1 / 1. / 1.2.3, headers with leading, double or tab
whitespace, duplicated parameter. -/
theorem c5_strict_parser_rejections :
    isVerificationErr (Signature.fromHeader ",keyId=\"t\",signature=\"AQID\"" none 0) = true ∧
    isVerificationErr (Signature.fromHeader "keyId=\"t\",signature=\"AQID\"," none 0) = true ∧
    isVerificationErr (Signature.fromHeader "keyId=\"t\",,signature=\"AQID\"" none 0) = true ∧
    isVerificationErr (Signature.fromHeader "keyId=\"t\",created=\"0\",signature=\"AQID\"" none 0) = true ∧
    isVerificationErr (Signature.fromHeader "keyId=\"t\",expires=\"1\",signature=\"AQID\"" none 0) = true ∧
    isVerificationErr (Signature.fromHeader "keyId=t,signature=\"AQID\"" none 0) = true ∧
    isVerificationErr (Signature.fromHeader "keyId=\"t\",algorithm=hs2019,signature=\"AQID\"" none 0) = true ∧
    isVerificationErr (Signature.fromHeader "keyId=\"t\",headers=host,signature=\"AQID\"" none 0) = true ∧
    isVerificationErr (Signature.fromHeader "keyId=\"t\",signature=AQID" none 0) = true ∧
    isVerificationErr (Signature.fromHeader "keyId=\"t\", signature=\"AQID\"" none 0) = true ∧
    isVerificationErr (Signature.fromHeader "keyId=\"t\",created=01,signature=\"AQID\"" none 0) = true ∧
    isVerificationErr (Signature.fromHeader "keyId=\"t\",created=-1,signature=\"AQID\"" none 0) = true ∧
    isVerificationErr (Signature.fromHeader "keyId=\"t\",created=1234.56,signature=\"AQID\"" none 0) = true ∧
    isVerificationErr (Signature.fromHeader "keyId=\"t\",expires=.1,signature=\"AQID\"" none 0) = true ∧
    isVerificationErr (Signature.fromHeader "keyId=\"t\",expires=1.,signature=\"AQID\"" none 0) = true ∧
    isVerificationErr (Signature.fromHeader "keyId=\"t\",expires=1.2.3,signature=\"AQID\"" none 0) = true ∧
    isVerificationErr (Signature.fromHeader "keyId=\"t\",headers=\" a b\",signature=\"AQID\"" none 0) = true ∧
    isVerificationErr (Signature.fromHeader "keyId=\"t\",headers=\"a  b\",signature=\"AQID\"" none 0) = true ∧
    isVerificationErr (Signature.fromHeader "keyId=\"t\",headers=\"a\tb\",signature=\"AQID\"" none 0) = true ∧
    isVerificationErr (Signature.fromHeader "keyId=\"t\",keyId=\"u\",signature=\"AQID\"" none 0) = true := by
  decide

/-- Claim C2 (code bug): HmacSignatureKey.verify translates the
timingSafeEqual length-mismatch RangeError into a VerificationError, but
SignatureKey.verifyDigestHeader has no such handler: a digest header whose
decoded base64 is shorter than the recomputed digest lets a RangeError
escape, not a VerificationError. -/
theorem c2_length_mismatch_behavior :
    HmacSignatureKey.verify c2Key "payload" [1, 2] =
      .error (.verification "signature length mismatch") ∧
    SignatureKey.verifyDigestHeader c2Key [] "SHA-256=AQID" =
      .error (.rangeError "Input buffers must have the same byte length") ∧
    isVerificationErr (SignatureKey.verifyDigestHeader c2Key [] "SHA-256=AQID") = false := by
  refine ⟨by decide, by decide, by decide⟩

/-- Claim C8 (code bug): tryGetKey passes the key config object itself, not
its `options` overrides record, to getKeySigningOptions; a per-key
calculateDigest=false override under `options` is therefore ignored and the
resolved options equal the base, although getKeySigningOptions itself honors
the override when it actually receives the overrides record. -/
theorem c8_option_override_ignored :
    c8KeyConfig.options.calculateDigest = some (some false) ∧
    tryGetKeyOptions "k" c8Base c8KeyConfig = .ok c8Base ∧
    getKeySigningOptions "k" c8Base c8KeyConfig.options =
      .ok { requestHeaders := c8Base.requestHeaders,
            responseHeaders := c8Base.responseHeaders,
            calculateDigest := some false } := by
  refine ⟨rfl, by decide, by decide⟩

/-- Claim C1: canonicalString emits one right-trimmed line per name in order,
each the lower-cased name, ": ", and the values joined with ", ", joined by a
single newline with no trailing newline; on the scenario-1 input it equals the
seven-line reference string, with x-emptyheader: carrying no trailing space. -/
theorem c1_canonicalString_emission :
    (∀ (ctx : MessageContext) (H : List String) (values : String → List String),
      (∀ h ∈ H, ctx.getHeader (asciiLower h) = .ok (some (values h))) →
      ctx.canonicalString H =
        .ok (joinSep "\n" (H.map (fun h =>
          jsTrimEnd (asciiLower h ++ ": " ++ joinSep ", " (values h)))))) ∧
    MessageContext.canonicalString scenario1Ctx scenario1Headers = .ok scenario1Reference := by
  constructor
  · intro ctx H values hval
    unfold MessageContext.canonicalString
    rw [mapExcept_ok_of_all ctx.canonicalLine
      (fun h => jsTrimEnd (asciiLower h ++ ": " ++ joinSep ", " (values h))) H
      (fun h hh => by
        unfold MessageContext.canonicalLine
        dsimp only
        rw [hval h hh])]
  · decide

theorem c1_canonicalString_emission_witness :
    MessageContext.canonicalString scenario1Ctx scenario1Headers =
      .ok (joinSep "\n" (scenario1Headers.map (fun h =>
        jsTrimEnd (asciiLower h ++ ": " ++ joinSep ", " (scenario1Values h))))) :=
  c1_canonicalString_emission.1 scenario1Ctx scenario1Headers scenario1Values (by decide)

/-- Claim C9 counterexample: with no request target, canonicalString over
[(request-target)] raises a ConfigurationError ("BUG: ..."), not the
VerificationError the claim requires for a header without a value. -/
theorem c9_request_target_counterexample :
    MessageContext.canonicalString c9Ctx ["(request-target)"] =
      .error (.configuration "BUG: attempted to sign/verify (request-target) for response") ∧
    isVerificationErr (MessageContext.canonicalString c9Ctx ["(request-target)"]) = false := by
  refine ⟨by decide, by decide⟩

/-- Claim C9 as amended: for a header name H other than (request-target)
(after lower-casing) whose lookup yields no value, canonicalString raises a
VerificationError with message attempted to sign/verify missing header 'H',
provided the earlier names have values; for (request-target) on a message
without a request target it raises the ConfigurationError instead. -/
theorem c9_missing_header_amended :
    (∀ (ctx : MessageContext) (pre post : List String) (h : String),
      asciiLower h ≠ "(request-target)" →
      (∀ p ∈ pre, ∃ vs, ctx.getHeader (asciiLower p) = .ok (some vs)) →
      ctx.getHeader (asciiLower h) = .ok none →
      ctx.canonicalString (pre ++ h :: post) =
        .error (.verification ("attempted to sign/verify missing header \x27" ++ h ++ "\x27"))) ∧
    (∀ (ctx : MessageContext) (pre post : List String),
      ctx.message.requestTarget = none →
      (∀ p ∈ pre, ∃ vs, ctx.getHeader (asciiLower p) = .ok (some vs)) →
      ctx.canonicalString (pre ++ "(request-target)" :: post) =
        .error (.configuration "BUG: attempted to sign/verify (request-target) for response")) := by
  constructor
  · intro ctx pre post h _ hpre hnone
    unfold MessageContext.canonicalString
    rw [mapExcept_error_at ctx.canonicalLine h _
      (by
        unfold MessageContext.canonicalLine
        dsimp only
        rw [hnone])
      pre post
      (fun p hp => by
        obtain ⟨vs, hvs⟩ := hpre p hp
        refine ⟨jsTrimEnd (asciiLower p ++ ": " ++ joinSep ", " vs), ?_⟩
        unfold MessageContext.canonicalLine
        dsimp only
        rw [hvs])]
  · intro ctx pre post hrt hpre
    unfold MessageContext.canonicalString
    rw [mapExcept_error_at ctx.canonicalLine "(request-target)" _
      (by
        unfold MessageContext.canonicalLine MessageContext.getHeader
        dsimp only
        rw [if_pos (show asciiLower (asciiLower "(request-target)") = "(request-target)" from
          by decide), hrt])
      pre post
      (fun p hp => by
        obtain ⟨vs, hvs⟩ := hpre p hp
        refine ⟨jsTrimEnd (asciiLower p ++ ": " ++ joinSep ", " vs), ?_⟩
        unfold MessageContext.canonicalLine
        dsimp only
        rw [hvs])]

theorem c9_missing_header_amended_witness :
    MessageContext.canonicalString c9bCtx ["host", "date"] =
      .error (.verification "attempted to sign/verify missing header \x27date\x27") :=
  c9_missing_header_amended.1 c9bCtx ["host"] [] "date" (by decide)
    (by
      intro p hp
      simp only [List.mem_singleton] at hp
      subst hp
      exact ⟨["example.org"], by decide⟩)
    (by decide)

/-- Claim C10: canonicalString right-trims every emitted line, so two
messages whose header values differ only in trailing whitespace (equal after
right-trimming the joined value) produce the same canonical string. -/
theorem c10_trailing_whitespace :
    ∀ (ctx1 ctx2 : MessageContext) (H : List String),
      (∀ h ∈ H, ∃ v1 v2, ctx1.getHeader (asciiLower h) = .ok (some v1) ∧
        ctx2.getHeader (asciiLower h) = .ok (some v2) ∧
        jsTrimEnd (joinSep ", " v1) = jsTrimEnd (joinSep ", " v2)) →
      ctx1.canonicalString H = ctx2.canonicalString H := by
  intro ctx1 ctx2 H hv
  unfold MessageContext.canonicalString
  rw [mapExcept_congr ctx1.canonicalLine ctx2.canonicalLine H (fun h hh => by
    obtain ⟨v1, v2, h1, h2, heq⟩ := hv h hh
    unfold MessageContext.canonicalLine
    dsimp only
    rw [h1, h2]
    show Except.ok (jsTrimEnd (asciiLower h ++ ": " ++ joinSep ", " v1)) =
      Except.ok (jsTrimEnd (asciiLower h ++ ": " ++ joinSep ", " v2))
    rw [jsTrimEnd_append_congr (asciiLower h ++ ": ") heq])]

theorem c10_trailing_whitespace_witness :
    MessageContext.canonicalString c10aCtx ["x-example"] =
      MessageContext.canonicalString c10bCtx ["x-example"] :=
  c10_trailing_whitespace c10aCtx c10bCtx ["x-example"]
    (by
      intro h hh
      simp only [List.mem_singleton] at hh
      subst hh
      exact ⟨["a"], ["a  "], by decide, by decide, by decide⟩)

/-- Claim C3: when the extracted signature declares an algorithm different
from the key's configured scheme, verification fails with a VerificationError
whatever the MAC primitive is (so the primitive is never consulted); when no
algorithm is declared, verification proceeds to the MAC-checking tail. -/
theorem c3_algorithm_agreement_precedes_mac :
    (∀ (key : SignatureKey) (ctx : MessageContext) (spec : HeaderSpec) (now : Int)
        (refSig : Signature) (a : SignatureAlgorithm),
      ctx.getSignature none now = .ok (some refSig) →
      refSig.signatureAlgorithm = some a →
      key.signatureAlgorithm ≠ a →
      ∀ mac : String → List Nat,
        SignatureKey.verifyMessage { key with sign := mac } ctx spec now =
          .error (.verification
            ("incorrect signature scheme used for key \x27" ++ key.id ++ "\x27"))) ∧
    (∀ (key : SignatureKey) (ctx : MessageContext) (spec : HeaderSpec) (now : Int)
        (refSig : Signature),
      ctx.getSignature none now = .ok (some refSig) →
      refSig.signatureAlgorithm = none →
      SignatureKey.verifyMessage key ctx spec now = key.verifyTail ctx spec refSig) := by
  constructor
  · intro key ctx spec now refSig a hsig halg hne mac
    simp [SignatureKey.verifyMessage, hsig, halg, hne]
  · intro key ctx spec now refSig hsig halg
    simp [SignatureKey.verifyMessage, hsig, halg]

theorem c3_algorithm_agreement_precedes_mac_witness :
    SignatureKey.verifyMessage { c3Key with sign := fun _ => [0] } c3Ctx [] 0 =
      .error (.verification "incorrect signature scheme used for key \x27key1\x27") :=
  c3_algorithm_agreement_precedes_mac.1 c3Key c3Ctx [] 0 c3RefSig .rsaSha256
    (by decide) (by decide) (by decide) (fun _ => [0])

/-- Claim C4 counterexample: with calculateDigest on, a signature whose
declared header list is just [host] (no digest) still verifies successfully
once the MAC matches — verification never consults calculateDigest. -/
theorem c4_calcdigest_counterexample :
    c4Key.options.calculateDigest = true ∧
    (MessageContext.getSignature c4Ctx none 0).map (Option.map Signature.headers) =
      .ok (some ["host"]) ∧
    SignatureKey.verifyRequest c4Key c4Ctx 0 = .ok true := by
  refine ⟨rfl, by decide, by decide⟩

/-- Claim C4 as amended: (a) signing with calculateDigest on uses the sign
header list with digest appended when absent, so digest is always among the
signed headers; (b) verification ignores calculateDigest entirely: its result
is unchanged by flipping the option, and it requires only the headers tagged
verify or both. -/
theorem c4_calcdigest_amended :
    (∀ spec : HeaderSpec, signHeaders true spec =
      (if (headerList spec .sign).contains "digest" then headerList spec .sign
       else headerList spec .sign ++ ["digest"])) ∧
    (∀ spec : HeaderSpec, "digest" ∈ signHeaders true spec) ∧
    (∀ (key : SignatureKey) (ctx : MessageContext) (b : Bool) (now : Int),
      SignatureKey.verifyRequest
        { key with options := { key.options with calculateDigest := b } } ctx now =
      SignatureKey.verifyRequest key ctx now) ∧
    (∀ (key : SignatureKey) (ctx : MessageContext) (b : Bool) (now : Int),
      SignatureKey.verifyResponse
        { key with options := { key.options with calculateDigest := b } } ctx now =
      SignatureKey.verifyResponse key ctx now) := by
  refine ⟨?_, ?_, ?_, ?_⟩
  · intro spec
    unfold signHeaders
    by_cases hc : (headerList spec .sign).contains "digest" <;> simp [hc]
  · intro spec
    unfold signHeaders
    by_cases hc : (headerList spec .sign).contains "digest"
    · simp only [hc, Bool.not_true, Bool.and_false, if_false]
      have := List.elem_iff.mp hc
      simpa using this
    · have hnm : "digest" ∉ headerList spec .sign := fun hmem => hc (List.elem_iff.mpr hmem)
      simp [hc, hnm]
  · intro key ctx b now
    rfl
  · intro key ctx b now
    rfl

/-- Claim C6 counterexample: for a key whose spec tags x-extra verify-only,
the message carries values for every header in the effective sign set, the
produced signature parses and its MAC verifies, yet verifying the same
message carrying the produced signature string fails: the verify-required
x-extra is not among the signed headers. -/
theorem c6_roundtrip_counterexample :
    SignatureKey.signRequest c6Key c6Ctx = .ok c6SigStr ∧
    MessageContext.canonicalString c6Ctx
      (signHeaders c6Key.options.calculateDigest c6Key.options.requestHeaders) =
      .ok "host: h" ∧
    SignatureKey.verifyRequest c6Key (withSignature c6Ctx c6SigStr) 0 =
      .error (.verification "signature missing required headers: x-extra") := by
  refine ⟨by decide, by decide, by decide⟩

/-- Claim C6 as amended: sign-then-verify on the same message with the same
key round-trips to true, provided the key is well-formed for the wire format
(keyId without comma; signed header names nonempty, lower-case, free of
whitespace and commas, and not the signature header itself) and every header
the key requires on verification is contained in the effective signed list;
the message must carry values for every signed header (canonicalization
succeeds) and no authorization header. -/
theorem c6_roundtrip_amended
    (key : SignatureKey) (ctx : MessageContext) (L : Nat) (hs : List String)
    (payload S : String) (now : Int)
    (hhs : hs = signHeaders key.options.calculateDigest key.options.requestHeaders)
    (hL : 0 < L)
    (hmacLen : ∀ s, (key.sign s).length = L)
    (hmacBytes : ∀ s, ∀ b ∈ key.sign s, b < 256)
    (hid : ',' ∉ key.id.data)
    (hhs_ne : hs ≠ [])
    (hwf : ∀ n ∈ hs, n.data ≠ [] ∧ asciiLower n = n ∧ (∀ c ∈ n.data, isJsWs c = false) ∧
      ',' ∉ n.data ∧ n ≠ "signature")
    (hverify : ∀ n ∈ headerList key.options.requestHeaders .verify, n ∈ hs)
    (hauth : ctx.message.getHeader "authorization" = none)
    (hpayload : ctx.canonicalString hs = .ok payload)
    (hsign : key.signRequest ctx = .ok S) :
    SignatureKey.verifyRequest key (withSignature ctx S) now = .ok true := by
  have hS : S = formatParams key.id key.signatureAlgorithm.wire (joinSep " " hs)
      (base64Encode (key.sign payload)) := by
    unfold SignatureKey.signRequest SignatureKey.signMessage at hsign
    dsimp only at hsign
    rw [← hhs] at hsign
    simp only [hpayload] at hsign
    injection hsign with h
    exact h.symm
  have hbne : key.sign payload ≠ [] := by
    intro h0
    have hl := hmacLen payload
    rw [h0] at hl
    simp at hl
    omega
  have hfrom := fromHeader_format key.id key.signatureAlgorithm hs (key.sign payload) none now
    hid (hmacBytes payload) hbne hhs_ne
    (fun n hn => ⟨(hwf n hn).1, (hwf n hn).2.1, (hwf n hn).2.2.1, (hwf n hn).2.2.2.1⟩)
  have hgs : (withSignature ctx S).getSignature none now =
      .ok (some ⟨key.id, key.sign payload, hs, some key.signatureAlgorithm, none, none,
        now⟩) := by
    rw [getSignature_withSignature ctx S hauth none now, hS, hfrom]
    rfl
  have hcanon : (withSignature ctx S).canonicalString hs = .ok payload := by
    rw [canonicalString_withSignature ctx S hs (fun n hn => by
      rw [(hwf n hn).2.1, (hwf n hn).2.1]
      exact (hwf n hn).2.2.2.2), hpayload]
  have hver : HmacSignatureKey.verify key payload (key.sign payload) = .ok true := by
    simp [HmacSignatureKey.verify, timingSafeEqual]
  have hmiss : (headerList key.options.requestHeaders .verify).filter
      (fun header => !hs.contains header) = [] := by
    rw [List.filter_eq_nil_iff]
    intro a ha
    simp [hverify a ha]
  simp only [SignatureKey.verifyRequest, SignatureKey.verifyMessage, hgs]
  rw [if_neg (show ¬key.signatureAlgorithm ≠ key.signatureAlgorithm from fun h => h rfl)]
  simp only [SignatureKey.verifyTail, hcanon, hver, hmiss]
  simp [Signature.validCreation, Signature.validExpires]

theorem c6_roundtrip_amended_witness :
    SignatureKey.verifyRequest c6wKey (withSignature c6wCtx c6wSigStr) 0 = .ok true :=
  c6_roundtrip_amended c6wKey c6wCtx 1 ["(request-target)", "host", "digest"]
    c6wPayload c6wSigStr 0
    (by decide) (by decide) (fun _ => rfl)
    (fun s b hb => by
      have hb7 : b = 7 := by simpa [c6wKey] using hb
      omega)
    (by decide) (by decide) (by decide) (by decide) (by decide) (by decide) (by decide)
